import Mathlib

/-!
Verification of the ear-training game's audio sequencing and round state
machine.

The development shallowly embeds the game's core:

* the pitch data model, difficulty profiles and the Arduino pin table
  (GameScreen component);
* the tone synthesizer configuration, `createPianoTone` (audio utility
  module): harmonic stack and amplitude-envelope breakpoints;
* the sequence player `playScale` / `playTriad` (audio utility module):
  the chained `setTimeout` scheduling is modelled as an event list with
  trigger times, and, separately, as a budgeted interpreter in which the
  returned cleanup function may be invoked after any number of timer
  firings;
* the round state machine of the GameScreen component: a labelled
  transition system over an explicit game state, whose steps are the
  scheduled callbacks (sequence completion, feedback delay, next-round
  delay), the user intents (guess, replay note, replay passage, exit) and
  the Arduino input handler;
* the on-screen piano's key-press handler (Piano component).

Timer bookkeeping that the source keeps implicitly (which sequence handles
still have a pending `setTimeout` continuation, which audio sources are in
the module-level `activeAudioSources` list) is carried explicitly in the
state so that cancellation and stop-all behaviour can be stated.
-/

namespace EarTrainer

/-- The seven named pitches (type Note of the types module). -/
inductive Note
  | C | D | E | F | G | A | B
deriving DecidableEq, Repr

/-- List allNotes of the GameScreen component. -/
def allNotes : List Note := [.C, .D, .E, .F, .G, .A, .B]

/-- Map noteFrequencies of the audio module: fundamental frequency in Hz. -/
def noteFrequencies : Note → ℚ
  | .C => 261.63
  | .D => 293.66
  | .E => 329.63
  | .F => 349.23
  | .G => 392.00
  | .A => 440.00
  | .B => 493.88

/-- Map pinToNote of the GameScreen component: Arduino pin to pitch. -/
def pinToNote : Nat → Option Note
  | 2 => some .C
  | 3 => some .D
  | 4 => some .E
  | 5 => some .F
  | 6 => some .G
  | 7 => some .A
  | 8 => some .B
  | _ => none

/-- Function getAvailableNotes of the GameScreen component: the usable-pitch
set of each difficulty profile. -/
def getAvailableNotes (difficulty : String) : List Note :=
  if difficulty = "easy" then [.C, .E, .G]
  else if difficulty = "medium" then [.C, .E, .F, .G]
  else if difficulty = "hard" then [.C, .D, .E, .F, .G, .A, .B]
  else [.C, .E, .G]

/-- Round count: 5 for easy, 10 otherwise (GameScreen component). -/
def totalRounds (difficulty : String) : Nat :=
  if difficulty = "easy" then 5 else 10

/-- The scale sequence played by playScale (audio module). -/
def scaleNotes : List Note := [.C, .D, .E, .F, .G, .A, .B]

/-- The triad sequence played by playTriad (audio module). -/
def triadSequence : List Note := [.C, .E, .G, .E, .C]

/-- The reference passage initializeGame starts: the triad for easy, the
full scale for every other difficulty (GameScreen component). -/
def referencePassage (difficulty : String) : List Note :=
  if difficulty = "easy" then triadSequence else scaleNotes

/-! ## Tone synthesizer (createPianoTone of the audio module) -/

/-- A Web-Audio gain automation method used on the master gain node. -/
inductive RampKind
  | setValue
  | linearRamp
  | exponentialRamp
deriving DecidableEq, Repr

/-- One envelope breakpoint: the automation method, the target gain value
and the time offset (in seconds) from the trigger time. -/
structure EnvPoint where
  kind : RampKind
  value : ℚ
  time : ℚ
deriving DecidableEq, Repr

/-- The harmonics array of createPianoTone: pairs of oscillator frequency
and relative gain. -/
def harmonics (frequency : ℚ) : List (ℚ × ℚ) :=
  [(frequency, 0.8),
   (frequency * 2, 0.3),
   (frequency * 3, 0.15),
   (frequency * 4, 0.08),
   (frequency * 5, 0.04)]

/-- The observable configuration createPianoTone builds: one oscillator per
harmonic (its frequency and per-oscillator gain) and the master envelope. -/
structure PianoTone where
  oscFreqs : List ℚ
  oscGains : List ℚ
  envelope : List EnvPoint
deriving DecidableEq, Repr

/-- Function createPianoTone of the audio module, as the configuration it
installs: the five harmonic oscillators and the gain-node automation calls
made on the master gain node, in source order. -/
def createPianoTone (frequency duration : ℚ) : PianoTone :=
  { oscFreqs := (harmonics frequency).map Prod.fst
    oscGains := (harmonics frequency).map Prod.snd
    envelope :=
      [ { kind := .setValue, value := 0, time := 0 }
      , { kind := .linearRamp, value := 0.4, time := 0.01 }
      , { kind := .exponentialRamp, value := 0.2, time := 0.1 }
      , { kind := .exponentialRamp, value := 0.05, time := duration * 0.7 }
      , { kind := .linearRamp, value := 0, time := duration } ] }

/-! ## Sequence player (playScale / playTriad of the audio module)

Both functions run the same chained-timeout loop over their note list:
playNextNote, called once synchronously, plays the note at the current
index with duration 0.6 s and re-arms a 700 ms timeout for the next index;
once the index passes the end it arms a 600 ms timeout that invokes
onComplete.  The first model below records every emission with its trigger
time in milliseconds; the second records what is emitted when the returned
cleanup function (clearTimeout of the single pending timer) is invoked
after a given number of timer firings. -/

/-- An observable emission of a sequence playback; note durations are in
milliseconds (the source's 0.6 s is 600 ms). -/
inductive SeqEvent
  | noteOn (n : Note) (durationMs : Nat)
  | complete
deriving DecidableEq, Repr

/-- The full emission schedule of the playNextNote loop started at time t
(milliseconds): each note at 700 ms spacing, then onComplete 600 ms after
the final (empty) scheduling step. -/
def playNextNoteEvents : List Note → Nat → List (Nat × SeqEvent)
  | [], t => [(t + 600, SeqEvent.complete)]
  | p :: rest, t => (t, SeqEvent.noteOn p 600) :: playNextNoteEvents rest (t + 700)

/-- The timed emissions of playScale / playTriad on a note list, from the
initial synchronous playNextNote call at time 0. -/
def seqEvents (notes : List Note) : List (Nat × SeqEvent) :=
  playNextNoteEvents notes 0

/-- The budgeted playNextNote interpreter: seqRunAux notes i j is the list
of emissions when the loop body runs now with current index i and exactly j
further scheduled timeouts fire before the cleanup function clears the
single pending timer.  With i below the length the body plays note i
(duration 0.6 s) and re-arms; past the end it arms the onComplete timeout,
which fires only if budget remains. -/
def seqRunAux (notes : List Note) (i : Nat) : Nat → List SeqEvent
  | 0 =>
    if h : i < notes.length then [SeqEvent.noteOn notes[i] 600] else []
  | j + 1 =>
    if h : i < notes.length then
      SeqEvent.noteOn notes[i] 600 :: seqRunAux notes (i + 1) j
    else
      [SeqEvent.complete]

/-- Emissions of a playback handle whose cleanup function is invoked after
exactly j timer firings (the initial call is synchronous, so note 0 is
already emitted at j = 0). -/
def emittedAfterCancel (notes : List Note) (j : Nat) : List SeqEvent :=
  seqRunAux notes 0 j

/-! ## On-screen piano (Piano component) -/

/-- The outcome of one handleKeyPress call of the Piano component: the
resulting pressed-key set, the tone played (pitch and duration in
milliseconds) and the guess forwarded through onNoteClick, if any. -/
structure PianoResult where
  pressedKeys : List Note
  tonePlayed : Option (Note × Nat)
  guessSent : Option Note
deriving DecidableEq, Repr

/-- Function handleKeyPress of the Piano component: a click on a key is
dropped when the piano is disabled or the pitch is not in availableNotes;
otherwise the key is marked pressed, a 0.3 s (300 ms) tone plays and the
pitch is forwarded to onNoteClick. -/
def handleKeyPress (availableNotes : List Note) (disabled : Bool)
    (pressedKeys : List Note) (note : Note) : PianoResult :=
  if disabled = true ∨ note ∉ availableNotes then
    { pressedKeys := pressedKeys, tonePlayed := none, guessSent := none }
  else
    { pressedKeys := pressedKeys.insert note
      tonePlayed := some (note, 300)
      guessSent := some note }

/-! ## Round state machine (GameScreen component) -/

/-- The status state of the GameScreen component. -/
inductive Status
  | initial
  | playing
  | guessing
  | feedback
deriving DecidableEq, Repr

/-- What the onComplete callback of a sequence handle does: handles made by
initializeGame select a random target from the captured note list; handles
made by replayScale only restore the prompt message. -/
inductive HandleKind
  | initGame (notes : List Note)
  | replay
deriving DecidableEq, Repr

/-- One sequence playback handle: its identity, the passage it plays and
its completion behaviour.  A handle is live while its chained timeout is
still pending. -/
structure Handle where
  id : Nat
  passage : List Note
  kind : HandleKind
deriving DecidableEq, Repr

/-- The state of the GameScreen component, together with the explicit
timer and audio bookkeeping the source keeps implicitly: pendingStart is
the mount-time 2 s timer, pendingFeedback the 2.5 s feedback timeout with
the values its closure captured (isCorrect, round, pre-increment score),
pendingNextRound the 1.5 s round-advance timeout, liveHandles the sequence
handles with a pending continuation, audioCleanupRef the stored cleanup of
the most recent handle, activeAudioSources the module-level registry of
sounding tones, finalized the arguments passed to onEndGame, and exited
whether onExitGame ran. -/
structure GState where
  difficulty : String
  score : Nat
  currentNote : Option Note
  status : Status
  feedback : Option Bool
  round : Nat
  availableNotes : List Note
  pendingStart : Bool
  pendingFeedback : Option (Bool × Nat × Nat)
  pendingNextRound : Bool
  liveHandles : List Handle
  audioCleanupRef : Option Handle
  nextHandleId : Nat
  activeAudioSources : List Nat
  nextToneId : Nat
  finalized : Option (Nat × Nat)
  exited : Bool
deriving DecidableEq, Repr

/-- The GameScreen state at mount: round 1, score 0, status initial, the
first-round start timer pending. -/
def initialState (difficulty : String) : GState :=
  { difficulty := difficulty
    score := 0
    currentNote := none
    status := .initial
    feedback := none
    round := 1
    availableNotes := []
    pendingStart := true
    pendingFeedback := none
    pendingNextRound := false
    liveHandles := []
    audioCleanupRef := none
    nextHandleId := 0
    activeAudioSources := []
    nextToneId := 0
    finalized := none
    exited := false }

/-- The registry effect of one playNote call: a fresh audio source is
pushed onto the module-level activeAudioSources list. -/
def playNoteFx (s : GState) : GState :=
  { s with activeAudioSources := s.nextToneId :: s.activeAudioSources
           nextToneId := s.nextToneId + 1 }

/-- Function handleNoteGuess of the GameScreen component.  A guess outside
the guessing status is ignored; otherwise correctness is the guessed pitch
matching currentNote, feedback and status are set, the score is bumped on a
correct guess, and the 2.5 s feedback timeout is armed with the closure's
captured isCorrect, round and (pre-increment) score. -/
def handleNoteGuess (s : GState) (guessedNote : Note) : GState :=
  if s.status ≠ Status.guessing then s
  else
    let isCorrect : Bool := s.currentNote = some guessedNote
    { s with feedback := some isCorrect
             status := Status.feedback
             score := if isCorrect then s.score + 1 else s.score
             pendingFeedback := some (isCorrect, s.round, s.score) }

/-- Function selectRandomNote of the GameScreen component, at the chosen
note n: sets the target, enters the guessing status and plays the target
once (duration 1 s). -/
def selectRandomNote (s : GState) (n : Note) : GState :=
  playNoteFx { s with currentNote := some n, status := Status.guessing }

/-- Function initializeGame of the GameScreen component: installs the
profile's usable-pitch set, enters the playing status, and starts the
reference passage (playTriad for easy, playScale otherwise), storing the
new handle's cleanup in audioCleanupRef.  The prior handle is not
cancelled; the new handle is simply added to the pending ones. -/
def initializeGame (s : GState) : GState :=
  let notes := getAvailableNotes s.difficulty
  let h : Handle :=
    { id := s.nextHandleId
      passage := referencePassage s.difficulty
      kind := HandleKind.initGame notes }
  { s with availableNotes := notes
           status := Status.playing
           liveHandles := h :: s.liveHandles
           audioCleanupRef := some h
           nextHandleId := s.nextHandleId + 1 }

/-- Function replayCurrentNote of the GameScreen component: replays the
target (duration 1 s) when guessing and a target exists. -/
def replayCurrentNote (s : GState) : GState :=
  if s.currentNote.isSome ∧ s.status = Status.guessing then playNoteFx s else s

/-- Function replayScale of the GameScreen component: when guessing,
starts the reference passage again and overwrites audioCleanupRef with the
new handle's cleanup.  The outstanding handle is not cancelled. -/
def replayScale (s : GState) : GState :=
  if s.status = Status.guessing then
    let h : Handle :=
      { id := s.nextHandleId
        passage := referencePassage s.difficulty
        kind := HandleKind.replay }
    { s with liveHandles := h :: s.liveHandles
             audioCleanupRef := some h
             nextHandleId := s.nextHandleId + 1 }
  else s

/-- Invoking the stored cleanup function (if any): clears the pending
timeout of the handle audioCleanupRef refers to.  On an already-completed
handle clearTimeout is a no-op, which List.erase matches. -/
def cancelTracked (s : GState) : GState :=
  match s.audioCleanupRef with
  | some h => { s with liveHandles := s.liveHandles.erase h }
  | none => s

/-- Function endGame of the GameScreen component: stopAllAudio empties the
registry, the stored cleanup is invoked, and onEndGame receives the passed
final score (falling back to the score state) with totalRounds. -/
def endGame (s : GState) (finalScore : Option Nat) : GState :=
  let s1 := cancelTracked { s with activeAudioSources := [] }
  { s1 with finalized := some (finalScore.getD s1.score, totalRounds s1.difficulty) }

/-- Function confirmExit of the GameScreen component: stopAllAudio empties
the registry, the stored cleanup is invoked, and onExitGame runs without
finalizing a score. -/
def confirmExit (s : GState) : GState :=
  { cancelTracked { s with activeAudioSources := [] } with exited := true }

/-- The body of the 2.5 s timeout armed by handleNoteGuess, with the
captured isCorrect c, round r and pre-increment score cs: on the last round
it ends the game with the recomputed final score, otherwise it advances the
round, clears feedback, returns to the initial status and arms the 1.5 s
round-advance timeout. -/
def feedbackTimeoutBody (s : GState) (c : Bool) (r cs : Nat) : GState :=
  if totalRounds s.difficulty ≤ r then
    endGame s (some (if c then cs + 1 else cs))
  else
    { s with round := r + 1
             feedback := none
             status := Status.initial
             pendingNextRound := true }

/-- The outcome of one handleArduinoData call: the playNote invocation it
makes (pitch and duration in milliseconds), and the state after any
forwarded guess. -/
structure ArduinoResult where
  tonePlayed : Option (Note × Nat)
  state : GState
deriving Repr

/-- Function handleArduinoData of the GameScreen component: an unmapped pin
is dropped; a mapped pin always plays a 0.3 s (300 ms) tone for its pitch,
and the pitch is additionally forwarded to handleNoteGuess exactly when the
status is guessing and the pitch is in availableNotes. -/
def handleArduinoData (s : GState) (pin : Nat) : ArduinoResult :=
  match pinToNote pin with
  | none => { tonePlayed := none, state := s }
  | some note =>
      if s.status = Status.guessing ∧ note ∈ s.availableNotes then
        { tonePlayed := some (note, 300), state := handleNoteGuess (playNoteFx s) note }
      else
        { tonePlayed := some (note, 300), state := playNoteFx s }

/-- The disabled flag the GameScreen component passes to the Piano: set
exactly when the status is not guessing. -/
def pianoDisabled (s : GState) : Bool :=
  s.status ≠ Status.guessing

/-- The events that drive the round state machine: the mount-time start
timer, a note trigger or the completion of a live sequence handle (with the
randomly selected target for initializeGame handles), a piano-key guess, an
Arduino line, the two user replay actions, the feedback and round-advance
timeouts, the natural end of a sounding tone, and the confirmed exit. -/
inductive Label
  | start
  | seqNote (h : Handle)
  | seqComplete (h : Handle) (n : Option Note)
  | guessClick (g : Note)
  | arduino (pin : Nat)
  | feedbackTimer
  | nextRoundTimer
  | replayNoteClick
  | replayPassageClick
  | toneEnded (t : Nat)
  | exit

/-- The labelled transition relation of the round state machine.  Every
step requires the component to still be mounted (not exited, no finalized
session).  Timer steps require the matching pending timer and consume it;
user steps are available whenever the rendered control is (the piano only
forwards pitches in availableNotes while guessing; the replay buttons
render only while guessing, which their handlers re-check). -/
inductive Step : GState → Label → GState → Prop
  | start (s : GState)
      (hA : s.exited = false ∧ s.finalized = none)
      (hp : s.pendingStart = true) :
      Step s Label.start (initializeGame { s with pendingStart := false })
  | seqNote (s : GState) (h : Handle)
      (hA : s.exited = false ∧ s.finalized = none)
      (hm : h ∈ s.liveHandles) :
      Step s (Label.seqNote h) (playNoteFx s)
  | seqCompleteInit (s : GState) (h : Handle) (notes : List Note) (n : Note)
      (hA : s.exited = false ∧ s.finalized = none)
      (hm : h ∈ s.liveHandles)
      (hk : h.kind = HandleKind.initGame notes)
      (hn : n ∈ notes) :
      Step s (Label.seqComplete h (some n))
        (selectRandomNote { s with liveHandles := s.liveHandles.erase h } n)
  | seqCompleteReplay (s : GState) (h : Handle)
      (hA : s.exited = false ∧ s.finalized = none)
      (hm : h ∈ s.liveHandles)
      (hk : h.kind = HandleKind.replay) :
      Step s (Label.seqComplete h none)
        { s with liveHandles := s.liveHandles.erase h }
  | guessClick (s : GState) (g : Note)
      (hA : s.exited = false ∧ s.finalized = none)
      (hst : s.status = Status.guessing)
      (hmem : g ∈ s.availableNotes) :
      Step s (Label.guessClick g) (handleNoteGuess (playNoteFx s) g)
  | arduino (s : GState) (pin : Nat)
      (hA : s.exited = false ∧ s.finalized = none) :
      Step s (Label.arduino pin) (handleArduinoData s pin).state
  | feedbackTimer (s : GState) (c : Bool) (r cs : Nat)
      (hA : s.exited = false ∧ s.finalized = none)
      (hpf : s.pendingFeedback = some (c, r, cs)) :
      Step s Label.feedbackTimer
        (feedbackTimeoutBody { s with pendingFeedback := none } c r cs)
  | nextRoundTimer (s : GState)
      (hA : s.exited = false ∧ s.finalized = none)
      (hp : s.pendingNextRound = true) :
      Step s Label.nextRoundTimer (initializeGame { s with pendingNextRound := false })
  | replayNoteClick (s : GState)
      (hA : s.exited = false ∧ s.finalized = none) :
      Step s Label.replayNoteClick (replayCurrentNote s)
  | replayPassageClick (s : GState)
      (hA : s.exited = false ∧ s.finalized = none) :
      Step s Label.replayPassageClick (replayScale s)
  | toneEnded (s : GState) (t : Nat)
      (hA : s.exited = false ∧ s.finalized = none)
      (hm : t ∈ s.activeAudioSources) :
      Step s (Label.toneEnded t) { s with activeAudioSources := s.activeAudioSources.erase t }
  | exit (s : GState)
      (hA : s.exited = false ∧ s.finalized = none) :
      Step s Label.exit (confirmExit s)

/-- The states a session with the given difficulty can reach from mount. -/
inductive Reach (d : String) : GState → Prop
  | init : Reach d (initialState d)
  | step {s s' : GState} {l : Label} : Reach d s → Step s l s' → Reach d s'

/-- A run of the machine recording, for each step, the pre-state and the
label taken. -/
inductive Trace : GState → List (GState × Label) → GState → Prop
  | nil (s : GState) : Trace s [] s
  | cons {s s' s'' : GState} {l : Label} {tr : List (GState × Label)} :
      Step s l s' → Trace s' tr s'' → Trace s ((s, l) :: tr) s''

/-- Whether a step records a correct guess: a piano guess of the current
target while guessing, or an Arduino line whose mapped pitch is usable,
equal to the target, arriving while guessing. -/
def guessRecorded (p : GState × Label) : Bool :=
  match p.2 with
  | Label.guessClick g =>
      decide (p.1.status = Status.guessing ∧ p.1.currentNote = some g)
  | Label.arduino pin =>
      match pinToNote pin with
      | some note =>
          decide (p.1.status = Status.guessing ∧ note ∈ p.1.availableNotes ∧
            p.1.currentNote = some note)
      | none => false
  | _ => false

/-- The number of correct guesses a run records. -/
def countCorrect (tr : List (GState × Label)) : Nat :=
  tr.countP guessRecorded

/-- The inductive invariant of the round state machine: the difficulty is
fixed; the 1-based round index stays within 1..totalRounds; an armed
feedback timeout captured the current round and the pre-increment score,
and only exists in the feedback status; the score is at most the number of
completed guesses; a still-pending start timer means the pristine mount
state; pending next-round advance only happens from the initial status;
live handles carry distinct identifiers below the allocation counter; and a
live initializeGame handle exists only in the playing status, with no
round-advance pending and every other live handle a replay handle. -/
structure Inv (d : String) (s : GState) : Prop where
  diff : s.difficulty = d
  round_pos : 1 ≤ s.round
  round_le : s.round ≤ totalRounds d
  pf : ∀ c r cs, s.pendingFeedback = some (c, r, cs) →
      r = s.round ∧ cs + (if c then 1 else 0) = s.score ∧ s.status = Status.feedback
  score_fb : s.status = Status.feedback → s.score ≤ s.round
  score_nfb : s.status ≠ Status.feedback → s.score + 1 ≤ s.round
  fresh : s.pendingStart = true → s.status = Status.initial ∧ s.score = 0 ∧
      s.round = 1 ∧ s.pendingFeedback = none ∧ s.pendingNextRound = false ∧
      s.liveHandles = []
  nr : s.pendingNextRound = true → s.status = Status.initial ∧ s.pendingFeedback = none
  ids_nodup : (s.liveHandles.map Handle.id).Nodup
  ids_lt : ∀ h ∈ s.liveHandles, h.id < s.nextHandleId
  initg : ∀ h ∈ s.liveHandles, ∀ ns, h.kind = HandleKind.initGame ns →
      s.status = Status.playing ∧ s.pendingNextRound = false ∧
      ∀ h' ∈ s.liveHandles, h' ≠ h → h'.kind = HandleKind.replay

/-! ## Concrete run used by the witnesses

A five-round easy session in which every guess is the correct target C:
mount, first-round start, passage completion with target C, correct guess,
feedback timeout, round advance, and so on; plus the double replay used to
exhibit overlapping handles. -/

/-- The initializeGame handle allocated with identifier k in an easy
session. -/
def hInit (k : Nat) : Handle :=
  { id := k
    passage := referencePassage "easy"
    kind := HandleKind.initGame (getAvailableNotes "easy") }

def g0 : GState := initialState "easy"
def g1 : GState := initializeGame { g0 with pendingStart := false }
def g2 : GState :=
  selectRandomNote { g1 with liveHandles := g1.liveHandles.erase (hInit 0) } Note.C
def g3 : GState := handleNoteGuess (playNoteFx g2) Note.C
def g4 : GState := feedbackTimeoutBody { g3 with pendingFeedback := none } true 1 0
def g5 : GState := initializeGame { g4 with pendingNextRound := false }
def g6 : GState :=
  selectRandomNote { g5 with liveHandles := g5.liveHandles.erase (hInit 1) } Note.C
def g7 : GState := handleNoteGuess (playNoteFx g6) Note.C
def g8 : GState := feedbackTimeoutBody { g7 with pendingFeedback := none } true 2 1
def g9 : GState := initializeGame { g8 with pendingNextRound := false }
def g10 : GState :=
  selectRandomNote { g9 with liveHandles := g9.liveHandles.erase (hInit 2) } Note.C
def g11 : GState := handleNoteGuess (playNoteFx g10) Note.C
def g12 : GState := feedbackTimeoutBody { g11 with pendingFeedback := none } true 3 2
def g13 : GState := initializeGame { g12 with pendingNextRound := false }
def g14 : GState :=
  selectRandomNote { g13 with liveHandles := g13.liveHandles.erase (hInit 3) } Note.C
def g15 : GState := handleNoteGuess (playNoteFx g14) Note.C
def g16 : GState := feedbackTimeoutBody { g15 with pendingFeedback := none } true 4 3
def g17 : GState := initializeGame { g16 with pendingNextRound := false }
def g18 : GState :=
  selectRandomNote { g17 with liveHandles := g17.liveHandles.erase (hInit 4) } Note.C
def g19 : GState := handleNoteGuess (playNoteFx g18) Note.C

/-- The recorded run from mount to the fifth (final-round) guess. -/
def c7Trace : List (GState × Label) :=
  [ (g0, Label.start)
  , (g1, Label.seqComplete (hInit 0) (some Note.C))
  , (g2, Label.guessClick Note.C)
  , (g3, Label.feedbackTimer)
  , (g4, Label.nextRoundTimer)
  , (g5, Label.seqComplete (hInit 1) (some Note.C))
  , (g6, Label.guessClick Note.C)
  , (g7, Label.feedbackTimer)
  , (g8, Label.nextRoundTimer)
  , (g9, Label.seqComplete (hInit 2) (some Note.C))
  , (g10, Label.guessClick Note.C)
  , (g11, Label.feedbackTimer)
  , (g12, Label.nextRoundTimer)
  , (g13, Label.seqComplete (hInit 3) (some Note.C))
  , (g14, Label.guessClick Note.C)
  , (g15, Label.feedbackTimer)
  , (g16, Label.nextRoundTimer)
  , (g17, Label.seqComplete (hInit 4) (some Note.C))
  , (g18, Label.guessClick Note.C) ]

/-- Two replay-passage clicks in a row while guessing: the first creates
handle 1; the second creates handle 2 while handle 1 is still scheduled. -/
def gReplay1 : GState := replayScale g2
def gReplay2 : GState := replayScale gReplay1

/-! ## Basic lemmas -/

theorem totalRounds_pos (d : String) : 1 ≤ totalRounds d := by
  unfold totalRounds; split <;> norm_num

@[simp] theorem cancelTracked_difficulty (s : GState) :
    (cancelTracked s).difficulty = s.difficulty := by
  unfold cancelTracked; cases s.audioCleanupRef <;> rfl

@[simp] theorem cancelTracked_score (s : GState) :
    (cancelTracked s).score = s.score := by
  unfold cancelTracked; cases s.audioCleanupRef <;> rfl

@[simp] theorem cancelTracked_round (s : GState) :
    (cancelTracked s).round = s.round := by
  unfold cancelTracked; cases s.audioCleanupRef <;> rfl

@[simp] theorem cancelTracked_status (s : GState) :
    (cancelTracked s).status = s.status := by
  unfold cancelTracked; cases s.audioCleanupRef <;> rfl

@[simp] theorem cancelTracked_finalized (s : GState) :
    (cancelTracked s).finalized = s.finalized := by
  unfold cancelTracked; cases s.audioCleanupRef <;> rfl

@[simp] theorem cancelTracked_exited (s : GState) :
    (cancelTracked s).exited = s.exited := by
  unfold cancelTracked; cases s.audioCleanupRef <;> rfl

@[simp] theorem cancelTracked_activeAudioSources (s : GState) :
    (cancelTracked s).activeAudioSources = s.activeAudioSources := by
  unfold cancelTracked; cases s.audioCleanupRef <;> rfl

@[simp] theorem cancelTracked_pendingFeedback (s : GState) :
    (cancelTracked s).pendingFeedback = s.pendingFeedback := by
  unfold cancelTracked; cases s.audioCleanupRef <;> rfl

theorem cancelTracked_live_of_some (s : GState) (h : Handle)
    (href : s.audioCleanupRef = some h) :
    (cancelTracked s).liveHandles = s.liveHandles.erase h := by
  unfold cancelTracked; rw [href]

theorem handleArduinoData_of_none (s : GState) (pin : Nat)
    (hp : pinToNote pin = none) :
    handleArduinoData s pin = { tonePlayed := none, state := s } := by
  unfold handleArduinoData; rw [hp]

theorem handleArduinoData_of_some (s : GState) (pin : Nat) (note : Note)
    (hp : pinToNote pin = some note) :
    handleArduinoData s pin =
      if s.status = Status.guessing ∧ note ∈ s.availableNotes then
        { tonePlayed := some (note, 300), state := handleNoteGuess (playNoteFx s) note }
      else
        { tonePlayed := some (note, 300), state := playNoteFx s } := by
  unfold handleArduinoData; rw [hp]

theorem endGame_finalized (s : GState) (v : Nat) :
    (endGame s (some v)).finalized = some (v, totalRounds s.difficulty) := by
  unfold endGame cancelTracked; cases s.audioCleanupRef <;> rfl

/-! ## Sequence player timing (claims about playScale and playTriad) -/

theorem playNextNoteEvents_length (notes : List Note) :
    ∀ t, (playNextNoteEvents notes t).length = notes.length + 1 := by
  induction notes with
  | nil => intro t; simp [playNextNoteEvents]
  | cons p rest ih => intro t; simp [playNextNoteEvents, ih]

theorem playNextNoteEvents_getElem (notes : List Note) :
    ∀ t i, (hi : i < notes.length) →
      (playNextNoteEvents notes t)[i]? =
        some (t + 700 * i, SeqEvent.noteOn notes[i] 600) := by
  induction notes with
  | nil => intro t i hi; simp at hi
  | cons p rest ih =>
      intro t i hi
      cases i with
      | zero => simp [playNextNoteEvents]
      | succ i' =>
          have hi' : i' < rest.length := by simpa using hi
          have h2 := ih (t + 700) i' hi'
          simp only [playNextNoteEvents, List.getElem?_cons_succ, List.getElem_cons_succ, h2,
            Option.some.injEq, Prod.mk.injEq]
          exact ⟨by ring, trivial⟩

theorem playNextNoteEvents_complete (notes : List Note) :
    ∀ t, (playNextNoteEvents notes t)[notes.length]? =
      some (t + 700 * notes.length + 600, SeqEvent.complete) := by
  induction notes with
  | nil => intro t; simp [playNextNoteEvents]
  | cons p rest ih =>
      intro t
      have h2 := ih (t + 700)
      simp only [playNextNoteEvents, List.length_cons, List.getElem?_cons_succ, h2,
        Option.some.injEq, Prod.mk.injEq]
      exact ⟨by ring, trivial⟩

theorem seqRunAux_eq (notes : List Note) :
    ∀ j i, i + j < notes.length →
      seqRunAux notes i j =
        ((notes.drop i).take (j + 1)).map (fun p => SeqEvent.noteOn p 600) := by
  intro j
  induction j with
  | zero =>
      intro i hi
      have h1 : i < notes.length := by omega
      rw [List.drop_eq_getElem_cons h1]
      simp only [seqRunAux, dif_pos h1, List.take_succ_cons, List.take_zero,
        List.map_cons, List.map_nil]
  | succ j' ih =>
      intro i hi
      have h1 : i < notes.length := by omega
      have h2 : (i + 1) + j' < notes.length := by omega
      rw [List.drop_eq_getElem_cons h1]
      simp only [seqRunAux, h1, dif_pos, List.take_succ_cons, List.map_cons]
      rw [ih (i + 1) h2]

/-- C1 counterexample: the claimed passage-subset invariant fails for the
difficulty profile medium, whose usable-pitch set {C, E, F, G} does not
contain the scale note D that the reference passage plays. -/
theorem C1_counterexample :
    ¬ (∀ d ∈ ["easy", "medium", "hard"], ∀ p ∈ referencePassage d,
        p ∈ getAvailableNotes d) ∧
    Note.D ∈ referencePassage "medium" ∧ Note.D ∉ getAvailableNotes "medium" := by
  decide

/-- C1 (amended): for the profiles easy and hard every pitch of the
reference passage is in the profile's usable-pitch set returned by
getAvailableNotes; for medium it is not, since the passage is the full
scale while the usable set is only {C, E, F, G}. -/
theorem C1_subset_easy_hard :
    (∀ p ∈ referencePassage "easy", p ∈ getAvailableNotes "easy") ∧
    (∀ p ∈ referencePassage "hard", p ∈ getAvailableNotes "hard") ∧
    ¬ (∀ p ∈ referencePassage "medium", p ∈ getAvailableNotes "medium") := by
  decide

/-- C2 counterexample: in both canonical sequences onComplete fires 1300 ms
after the last note triggers, not 600 ms: the scale's last note triggers at
4200 ms and completion fires at 5500 ms; the triad's last note triggers at
2800 ms and completion fires at 4100 ms. -/
theorem C2_counterexample :
    seqEvents scaleNotes =
      [(0, SeqEvent.noteOn Note.C 600), (700, SeqEvent.noteOn Note.D 600),
       (1400, SeqEvent.noteOn Note.E 600), (2100, SeqEvent.noteOn Note.F 600),
       (2800, SeqEvent.noteOn Note.G 600), (3500, SeqEvent.noteOn Note.A 600),
       (4200, SeqEvent.noteOn Note.B 600), (5500, SeqEvent.complete)] ∧
    seqEvents triadSequence =
      [(0, SeqEvent.noteOn Note.C 600), (700, SeqEvent.noteOn Note.E 600),
       (1400, SeqEvent.noteOn Note.G 600), (2100, SeqEvent.noteOn Note.E 600),
       (2800, SeqEvent.noteOn Note.C 600), (4100, SeqEvent.complete)] ∧
    (5500 : Nat) ≠ 4200 + 600 ∧ (4100 : Nat) ≠ 2800 + 600 := by
  decide

/-- C2 (amended): for every sequence playback that runs to completion, the
i-th note triggers at 700 i ms with a 600 ms duration (fixed 700 ms
spacing), and onComplete fires at 700 n + 600 ms, which for a nonempty
sequence is 1300 ms (not 600 ms) after the last note triggers: one further
700 ms timer step finds the sequence exhausted and then arms the 600 ms
completion timer. -/
theorem C2_sequence_timing (notes : List Note) :
    (∀ i, (hi : i < notes.length) →
      (seqEvents notes)[i]? = some (700 * i, SeqEvent.noteOn notes[i] 600)) ∧
    (seqEvents notes)[notes.length]? =
      some (700 * notes.length + 600, SeqEvent.complete) ∧
    (seqEvents notes).length = notes.length + 1 ∧
    (1 ≤ notes.length →
      700 * notes.length + 600 = 700 * (notes.length - 1) + 1300) := by
  refine ⟨?_, ?_, ?_, ?_⟩
  · intro i hi
    simpa using playNextNoteEvents_getElem notes 0 i hi
  · simpa using playNextNoteEvents_complete notes 0
  · simpa [seqEvents] using playNextNoteEvents_length notes 0
  · intro h; omega

/-- C3: invoking the cleanup function of a playback handle after j timer
firings, before the Nth note of the sequence would trigger (note N triggers
at the Nth firing, so j < N), leaves exactly the notes of index below N
emitted: onComplete never fires and no note of index at least N ever
triggers from that handle. -/
theorem C3_cancel_before (notes : List Note) (N j : Nat)
    (hN : N ≤ notes.length) (hj : j < N) :
    SeqEvent.complete ∉ emittedAfterCancel notes j ∧
    (emittedAfterCancel notes j).length ≤ N ∧
    emittedAfterCancel notes j =
      (notes.take (j + 1)).map (fun p => SeqEvent.noteOn p 600) := by
  have h0 : (0 : Nat) + j < notes.length := by omega
  have heq := seqRunAux_eq notes j 0 h0
  rw [List.drop_zero] at heq
  unfold emittedAfterCancel
  rw [heq]
  refine ⟨?_, ?_, rfl⟩
  · intro hmem
    rcases List.mem_map.mp hmem with ⟨p, _, hp⟩
    exact SeqEvent.noConfusion hp
  · rw [List.length_map, List.length_take]
    omega

/-- Witness for C3 at the scale, N = 3, j = 2: cancelling after two timer
firings emits exactly C, D, E. -/
theorem C3_witness :
    SeqEvent.complete ∉ emittedAfterCancel scaleNotes 2 ∧
    (emittedAfterCancel scaleNotes 2).length ≤ 3 ∧
    emittedAfterCancel scaleNotes 2 =
      (scaleNotes.take 3).map (fun p => SeqEvent.noteOn p 600) :=
  C3_cancel_before scaleNotes 3 2 (by decide) (by decide)

/-- C9: every synthesized tone of requested duration d has exactly five
partials, at 1, 2, 3, 4 and 5 times the fundamental frequency with relative
gains 0.8, 0.3, 0.15, 0.08 and 0.04, and its master envelope starts at 0,
ramps linearly to 0.4 at 10 ms (0.01 s), decays exponentially to 0.2 at
100 ms (0.1 s), decays exponentially to 0.05 at 0.7 d, and releases
linearly to 0 at d. -/
theorem C9_tone_envelope (f d : ℚ) :
    (createPianoTone f d).oscFreqs = [f, 2 * f, 3 * f, 4 * f, 5 * f] ∧
    (createPianoTone f d).oscGains = [0.8, 0.3, 0.15, 0.08, 0.04] ∧
    (createPianoTone f d).oscFreqs.length = 5 ∧
    (createPianoTone f d).envelope =
      [ { kind := RampKind.setValue, value := 0, time := 0 }
      , { kind := RampKind.linearRamp, value := 0.4, time := 0.01 }
      , { kind := RampKind.exponentialRamp, value := 0.2, time := 0.1 }
      , { kind := RampKind.exponentialRamp, value := 0.05, time := 0.7 * d }
      , { kind := RampKind.linearRamp, value := 0, time := d } ] := by
  refine ⟨?_, rfl, rfl, ?_⟩
  · simp [createPianoTone, harmonics, mul_comm]
  · simp [createPianoTone, mul_comm]

/-- C10: a click on a piano key is a complete no-op (identical pressed-key
set, no tone, no guess event) whenever the piano is disabled or the pitch
is outside availableNotes; the GameScreen wires the disabled flag to the
current status not being the guessing one, so every click outside the
AwaitingGuess phase is such a no-op. -/
theorem C10_keypress_noop (availableNotes : List Note) (disabled : Bool)
    (pressedKeys : List Note) (note : Note) :
    (disabled = true ∨ note ∉ availableNotes →
      handleKeyPress availableNotes disabled pressedKeys note =
        { pressedKeys := pressedKeys, tonePlayed := none, guessSent := none }) ∧
    (∀ s : GState, s.status ≠ Status.guessing →
      handleKeyPress s.availableNotes (pianoDisabled s) pressedKeys note =
        { pressedKeys := pressedKeys, tonePlayed := none, guessSent := none }) := by
  constructor
  · intro h
    rw [handleKeyPress, if_pos h]
  · intro s hs
    rw [handleKeyPress, if_pos]
    exact Or.inl (by simp [pianoDisabled, hs])

/-- C6: the Arduino handler drops signals with unmapped pins without any
effect; for a mapped pin it always issues a playNote call for the mapped
pitch (300 ms), and it forwards the pitch to handleNoteGuess exactly when
the status is the guessing one and the pitch is in the round's usable set,
leaving score, status, round, target and pending feedback untouched
otherwise; in particular a pin-5 signal in the playing (priming) status
plays pitch F and leaves score and status unchanged. -/
theorem C6_arduino_gating (s : GState) (pin : Nat) :
    (pinToNote pin = none →
      (handleArduinoData s pin).tonePlayed = none ∧
      (handleArduinoData s pin).state = s) ∧
    (∀ note, pinToNote pin = some note →
      (handleArduinoData s pin).tonePlayed = some (note, 300) ∧
      (s.status = Status.guessing ∧ note ∈ s.availableNotes →
        (handleArduinoData s pin).state = handleNoteGuess (playNoteFx s) note) ∧
      (¬ (s.status = Status.guessing ∧ note ∈ s.availableNotes) →
        (handleArduinoData s pin).state.score = s.score ∧
        (handleArduinoData s pin).state.status = s.status ∧
        (handleArduinoData s pin).state.round = s.round ∧
        (handleArduinoData s pin).state.currentNote = s.currentNote ∧
        (handleArduinoData s pin).state.pendingFeedback = s.pendingFeedback)) ∧
    (pin = 5 → s.status = Status.playing →
      (handleArduinoData s pin).tonePlayed = some (Note.F, 300) ∧
      (handleArduinoData s pin).state.score = s.score ∧
      (handleArduinoData s pin).state.status = Status.playing) := by
  refine ⟨?_, ?_, ?_⟩
  · intro hp
    rw [handleArduinoData_of_none s pin hp]
    exact ⟨rfl, rfl⟩
  · intro note hp
    rw [handleArduinoData_of_some s pin note hp]
    by_cases hc : s.status = Status.guessing ∧ note ∈ s.availableNotes
    · rw [if_pos hc]
      exact ⟨rfl, fun _ => rfl, fun hnc => absurd hc hnc⟩
    · rw [if_neg hc]
      exact ⟨rfl, fun hcc => absurd hcc hc, fun _ => ⟨rfl, rfl, rfl, rfl, rfl⟩⟩
  · intro hpin hst
    subst hpin
    rw [handleArduinoData_of_some s 5 Note.F rfl, if_neg (by simp [hst])]
    exact ⟨rfl, rfl, hst⟩

/-! ## The machine invariant and its preservation -/

theorem inv_initialState (d : String) : Inv d (initialState d) := by
  constructor <;> simp [initialState, totalRounds_pos]

theorem inv_playNoteFx {d : String} {s : GState} (hs : Inv d s) :
    Inv d (playNoteFx s) :=
  ⟨hs.diff, hs.round_pos, hs.round_le, hs.pf, hs.score_fb, hs.score_nfb,
   hs.fresh, hs.nr, hs.ids_nodup, hs.ids_lt, hs.initg⟩

theorem inv_handleNoteGuess {d : String} {s : GState} (g : Note) (hs : Inv d s) :
    Inv d (handleNoteGuess s g) := by
  unfold handleNoteGuess
  split
  · exact hs
  case isFalse hng =>
    have hg : s.status = Status.guessing := not_not.mp hng
    have hnfb : s.status ≠ Status.feedback := by rw [hg]; decide
    refine ⟨hs.diff, hs.round_pos, hs.round_le, ?_, ?_, ?_, ?_, ?_,
      hs.ids_nodup, hs.ids_lt, ?_⟩
    · intro c r cs heq
      simp only [Option.some.injEq, Prod.mk.injEq] at heq
      obtain ⟨hc, hr, hcs⟩ := heq
      subst hc; subst hr; subst hcs
      refine ⟨rfl, ?_, rfl⟩
      by_cases hcor : s.currentNote = some g <;> simp [hcor]
    · intro _
      have h1 := hs.score_nfb hnfb
      by_cases hcor : s.currentNote = some g <;> simp [hcor] <;> omega
    · intro hne
      exact absurd rfl hne
    · intro hps
      have := (hs.fresh hps).1
      rw [this] at hg
      exact absurd hg (by decide)
    · intro hnr
      have := (hs.nr hnr).1
      rw [this] at hg
      exact absurd hg (by decide)
    · intro h' hm ns hk
      have := (hs.initg h' hm ns hk).1
      rw [this] at hg
      exact absurd hg (by decide)

theorem inv_cancelTracked {d : String} {s : GState} (hs : Inv d s) :
    Inv d (cancelTracked s) := by
  unfold cancelTracked
  cases href : s.audioCleanupRef with
  | none => exact hs
  | some h =>
      refine ⟨hs.diff, hs.round_pos, hs.round_le, hs.pf, hs.score_fb, hs.score_nfb,
        ?_, hs.nr, ?_, ?_, ?_⟩
      · intro hps
        obtain ⟨h1, h2, h3, h4, h5, h6⟩ := hs.fresh hps
        exact ⟨h1, h2, h3, h4, h5, by rw [h6]; rfl⟩
      · exact hs.ids_nodup.sublist ((List.erase_sublist h s.liveHandles).map Handle.id)
      · intro h' hm
        exact hs.ids_lt h' (List.mem_of_mem_erase hm)
      · intro h' hm ns hk
        obtain ⟨h1, h2, h3⟩ := hs.initg h' (List.mem_of_mem_erase hm) ns hk
        exact ⟨h1, h2, fun h'' hm'' hne => h3 h'' (List.mem_of_mem_erase hm'') hne⟩

theorem inv_endGame {d : String} {s : GState} (v : Option Nat) (hs : Inv d s) :
    Inv d (endGame s v) := by
  unfold endGame
  have h1 : Inv d { s with activeAudioSources := [] } :=
    ⟨hs.diff, hs.round_pos, hs.round_le, hs.pf, hs.score_fb, hs.score_nfb,
     hs.fresh, hs.nr, hs.ids_nodup, hs.ids_lt, hs.initg⟩
  have h2 := inv_cancelTracked h1
  exact ⟨h2.diff, h2.round_pos, h2.round_le, h2.pf, h2.score_fb, h2.score_nfb,
    h2.fresh, h2.nr, h2.ids_nodup, h2.ids_lt, h2.initg⟩

theorem inv_initializeGame {d : String} {s : GState} (hs : Inv d s)
    (h1 : s.status = Status.initial) (h2 : s.pendingFeedback = none)
    (h3 : s.pendingNextRound = false)
    (h4 : ∀ h ∈ s.liveHandles, h.kind = HandleKind.replay)
    (h5 : s.pendingStart = false) :
    Inv d (initializeGame s) := by
  unfold initializeGame
  have hnfb : s.status ≠ Status.feedback := by rw [h1]; decide
  refine ⟨hs.diff, hs.round_pos, hs.round_le, ?_, ?_, ?_, ?_, ?_, ?_, ?_, ?_⟩
  · intro c r cs heq
    rw [h2] at heq
    exact Option.noConfusion heq
  · intro hfb
    simp at hfb
  · intro _
    exact hs.score_nfb hnfb
  · intro hps
    rw [h5] at hps
    exact Bool.noConfusion hps
  · intro hnr
    rw [h3] at hnr
    exact Bool.noConfusion hnr
  · rw [List.map_cons, List.nodup_cons]
    refine ⟨?_, hs.ids_nodup⟩
    intro hmem
    obtain ⟨h', hm', hid⟩ := List.mem_map.mp hmem
    have hid2 : h'.id = s.nextHandleId := hid
    have := hs.ids_lt h' hm'
    omega
  · intro h' hm'
    rcases List.mem_cons.mp hm' with rfl | hm2
    · exact Nat.lt_succ_self _
    · exact Nat.lt_succ_of_lt (hs.ids_lt h' hm2)
  · intro h' hm' ns' hk'
    rcases List.mem_cons.mp hm' with rfl | hm2
    · refine ⟨rfl, h3, ?_⟩
      intro h'' hm'' hne
      rcases List.mem_cons.mp hm'' with rfl | hm3
      · exact absurd rfl hne
      · exact h4 h'' hm3
    · have := h4 h' hm2
      rw [this] at hk'
      exact HandleKind.noConfusion hk'

theorem step_inv {d : String} {s s' : GState} {l : Label}
    (hs : Inv d s) (hstep : Step s l s') : Inv d s' := by
  cases hstep with
  | start hA hp =>
      obtain ⟨hst, hsc, hrd, hpf, hpnr, hlh⟩ := hs.fresh hp
      have hs1 : Inv d { s with pendingStart := false } :=
        ⟨hs.diff, hs.round_pos, hs.round_le, hs.pf, hs.score_fb, hs.score_nfb,
         fun hps => Bool.noConfusion hps, hs.nr, hs.ids_nodup, hs.ids_lt, hs.initg⟩
      exact inv_initializeGame hs1 hst hpf hpnr
        (fun h hm => absurd hm (by rw [hlh]; simp)) rfl
  | seqNote h hA hm =>
      exact inv_playNoteFx hs
  | seqCompleteInit h notes n hA hm hk hn =>
      obtain ⟨hpl, hpnr, hothers⟩ := hs.initg h hm notes hk
      have hnodup : s.liveHandles.Nodup := List.Nodup.of_map Handle.id hs.ids_nodup
      apply inv_playNoteFx
      refine ⟨hs.diff, hs.round_pos, hs.round_le, ?_, ?_, ?_, ?_, ?_, ?_, ?_, ?_⟩
      · intro c r cs heq
        exact absurd (hpl.symm.trans (hs.pf c r cs heq).2.2) (by decide)
      · intro hfb
        simp at hfb
      · intro _
        exact hs.score_nfb (by rw [hpl]; decide)
      · intro hps
        exact absurd ((hs.fresh hps).1.symm.trans hpl) (by decide)
      · intro hnr
        rw [hpnr] at hnr
        exact Bool.noConfusion hnr
      · exact hs.ids_nodup.sublist ((List.erase_sublist h s.liveHandles).map Handle.id)
      · intro h' hm'
        exact hs.ids_lt h' (List.mem_of_mem_erase hm')
      · intro h' hm' ns' hk'
        obtain ⟨hne, hmem⟩ := hnodup.mem_erase_iff.mp hm'
        have hrep := hothers h' hmem hne
        rw [hrep] at hk'
        exact HandleKind.noConfusion hk'
  | seqCompleteReplay h hA hm hk =>
      refine ⟨hs.diff, hs.round_pos, hs.round_le, hs.pf, hs.score_fb, hs.score_nfb,
        ?_, hs.nr, ?_, ?_, ?_⟩
      · intro hps
        obtain ⟨h1, h2, h3, h4, h5, h6⟩ := hs.fresh hps
        exact ⟨h1, h2, h3, h4, h5, by rw [h6]; rfl⟩
      · exact hs.ids_nodup.sublist ((List.erase_sublist h s.liveHandles).map Handle.id)
      · intro h' hm'
        exact hs.ids_lt h' (List.mem_of_mem_erase hm')
      · intro h' hm' ns' hk'
        obtain ⟨h1, h2, h3⟩ := hs.initg h' (List.mem_of_mem_erase hm') ns' hk'
        exact ⟨h1, h2, fun h'' hm'' hne => h3 h'' (List.mem_of_mem_erase hm'') hne⟩
  | guessClick g hA hst hmem =>
      exact inv_handleNoteGuess g (inv_playNoteFx hs)
  | arduino pin hA =>
      cases hp : pinToNote pin with
      | none =>
          rw [handleArduinoData_of_none s pin hp]
          exact hs
      | some note =>
          rw [handleArduinoData_of_some s pin note hp]
          by_cases hc : s.status = Status.guessing ∧ note ∈ s.availableNotes
          · rw [if_pos hc]
            exact inv_handleNoteGuess note (inv_playNoteFx hs)
          · rw [if_neg hc]
            exact inv_playNoteFx hs
  | feedbackTimer c r cs hA hpf =>
      obtain ⟨hr, hsc, hfb⟩ := hs.pf c r cs hpf
      have hs1 : Inv d { s with pendingFeedback := none } :=
        ⟨hs.diff, hs.round_pos, hs.round_le,
         fun c' r' cs' heq => Option.noConfusion heq,
         hs.score_fb, hs.score_nfb,
         fun hps => ⟨(hs.fresh hps).1, (hs.fresh hps).2.1, (hs.fresh hps).2.2.1, rfl,
           (hs.fresh hps).2.2.2.2.1, (hs.fresh hps).2.2.2.2.2⟩,
         fun hnr => ⟨(hs.nr hnr).1, rfl⟩,
         hs.ids_nodup, hs.ids_lt,
         fun h' hm' ns' hk' => hs.initg h' hm' ns' hk'⟩
      unfold feedbackTimeoutBody
      split
      · exact inv_endGame _ hs1
      case isFalse hlt =>
        have hrlt : r < totalRounds d := by
          have hd : ({ s with pendingFeedback := none } : GState).difficulty = d := hs.diff
          rw [hd] at hlt
          omega
        refine ⟨hs.diff, ?_, ?_, ?_, ?_, ?_, ?_, ?_, hs.ids_nodup, hs.ids_lt, ?_⟩
        · show 1 ≤ r + 1
          omega
        · show r + 1 ≤ totalRounds d
          omega
        · intro c' r' cs' heq
          exact Option.noConfusion heq
        · intro hfb'
          simp at hfb'
        · intro _
          show s.score + 1 ≤ r + 1
          have h1 := hs.score_fb hfb
          omega
        · intro hps
          have := (hs.fresh hps).2.2.2.1
          rw [this] at hpf
          exact Option.noConfusion hpf
        · intro _
          exact ⟨rfl, rfl⟩
        · intro h' hm' ns' hk'
          have hpl := (hs.initg h' hm' ns' hk').1
          exact absurd (hfb.symm.trans hpl) (by decide)
  | nextRoundTimer hA hp =>
      obtain ⟨hst, hpf⟩ := hs.nr hp
      have hps : s.pendingStart = false := by
        cases hq : s.pendingStart with
        | false => rfl
        | true =>
            have := (hs.fresh hq).2.2.2.2.1
            rw [this] at hp
            exact Bool.noConfusion hp
      have hnoinit : ∀ h ∈ s.liveHandles, h.kind = HandleKind.replay := by
        intro h hm
        cases hk : h.kind with
        | replay => rfl
        | initGame ns =>
            have := (hs.initg h hm ns hk).2.1
            rw [this] at hp
            exact Bool.noConfusion hp
      have hs1 : Inv d { s with pendingNextRound := false } :=
        ⟨hs.diff, hs.round_pos, hs.round_le, hs.pf, hs.score_fb, hs.score_nfb,
         fun hq => ⟨(hs.fresh hq).1, (hs.fresh hq).2.1, (hs.fresh hq).2.2.1,
           (hs.fresh hq).2.2.2.1, rfl, (hs.fresh hq).2.2.2.2.2⟩,
         fun hq => Bool.noConfusion hq,
         hs.ids_nodup, hs.ids_lt,
         fun h hm ns hk => ⟨(hs.initg h hm ns hk).1, rfl, (hs.initg h hm ns hk).2.2⟩⟩
      exact inv_initializeGame hs1 hst hpf rfl hnoinit hps
  | replayNoteClick hA =>
      unfold replayCurrentNote
      split
      · exact inv_playNoteFx hs
      · exact hs
  | replayPassageClick hA =>
      unfold replayScale
      split
      case isTrue hg =>
        refine ⟨hs.diff, hs.round_pos, hs.round_le, hs.pf, hs.score_fb, hs.score_nfb,
          ?_, hs.nr, ?_, ?_, ?_⟩
        · intro hps
          exact absurd ((hs.fresh hps).1.symm.trans hg) (by decide)
        · rw [List.map_cons, List.nodup_cons]
          refine ⟨?_, hs.ids_nodup⟩
          intro hmem
          obtain ⟨h', hm', hid⟩ := List.mem_map.mp hmem
          have hid2 : h'.id = s.nextHandleId := hid
          have := hs.ids_lt h' hm'
          omega
        · intro h' hm'
          rcases List.mem_cons.mp hm' with rfl | hm2
          · exact Nat.lt_succ_self _
          · exact Nat.lt_succ_of_lt (hs.ids_lt h' hm2)
        · intro h' hm' ns' hk'
          rcases List.mem_cons.mp hm' with rfl | hm2
          · exact HandleKind.noConfusion hk'
          · have hpl := (hs.initg h' hm2 ns' hk').1
            exact absurd (hg.symm.trans hpl) (by decide)
      · exact hs
  | toneEnded t hA hm =>
      exact ⟨hs.diff, hs.round_pos, hs.round_le, hs.pf, hs.score_fb, hs.score_nfb,
        hs.fresh, hs.nr, hs.ids_nodup, hs.ids_lt, hs.initg⟩
  | exit hA =>
      unfold confirmExit
      have h1 : Inv d { s with activeAudioSources := [] } :=
        ⟨hs.diff, hs.round_pos, hs.round_le, hs.pf, hs.score_fb, hs.score_nfb,
         hs.fresh, hs.nr, hs.ids_nodup, hs.ids_lt, hs.initg⟩
      have h2 := inv_cancelTracked h1
      exact ⟨h2.diff, h2.round_pos, h2.round_le, h2.pf, h2.score_fb, h2.score_nfb,
        h2.fresh, h2.nr, h2.ids_nodup, h2.ids_lt, h2.initg⟩

theorem reach_inv {d : String} {s : GState} (h : Reach d s) : Inv d s := by
  induction h with
  | init => exact inv_initialState d
  | step hr hstep ih => exact step_inv ih hstep

/-! ## Score accounting along a run -/

theorem step_score {s s' : GState} {l : Label} (h : Step s l s') :
    s'.score = s.score + (if guessRecorded (s, l) then 1 else 0) := by
  cases h with
  | start hA hp => simp [guessRecorded, initializeGame]
  | seqNote h hA hm => simp [guessRecorded, playNoteFx]
  | seqCompleteInit h notes n hA hm hk hn =>
      simp [guessRecorded, selectRandomNote, playNoteFx]
  | seqCompleteReplay h hA hm hk => simp [guessRecorded]
  | guessClick g hA hst hmem =>
      have hstx : ¬ ((playNoteFx s).status ≠ Status.guessing) := not_not_intro hst
      rw [handleNoteGuess, if_neg hstx]
      by_cases hc : s.currentNote = some g <;>
        simp [guessRecorded, playNoteFx, hc, hst]
  | arduino pin hA =>
      cases hp : pinToNote pin with
      | none =>
          rw [handleArduinoData_of_none s pin hp]
          simp [guessRecorded, hp]
      | some note =>
          rw [handleArduinoData_of_some s pin note hp]
          by_cases hc : s.status = Status.guessing ∧ note ∈ s.availableNotes
          · rw [if_pos hc]
            have hstx : ¬ ((playNoteFx s).status ≠ Status.guessing) := not_not_intro hc.1
            rw [handleNoteGuess, if_neg hstx]
            by_cases hcc : s.currentNote = some note <;>
              simp [guessRecorded, playNoteFx, hp, hc.1, hc.2, hcc]
          · rw [if_neg hc]
            have hfalse : ¬ (s.status = Status.guessing ∧ note ∈ s.availableNotes ∧
                s.currentNote = some note) := fun hx => hc ⟨hx.1, hx.2.1⟩
            simp [guessRecorded, playNoteFx, hp, hfalse]
  | feedbackTimer c r cs hA hpf =>
      unfold feedbackTimeoutBody
      split
      · unfold endGame
        simp [guessRecorded]
      · simp [guessRecorded]
  | nextRoundTimer hA hp => simp [guessRecorded, initializeGame]
  | replayNoteClick hA =>
      unfold replayCurrentNote
      split <;> simp [guessRecorded, playNoteFx]
  | replayPassageClick hA =>
      unfold replayScale
      split <;> simp [guessRecorded]
  | toneEnded t hA hm => simp [guessRecorded]
  | exit hA =>
      unfold confirmExit
      simp [guessRecorded]

theorem trace_score {s s' : GState} {tr : List (GState × Label)}
    (h : Trace s tr s') : s'.score = s.score + countCorrect tr := by
  induction h with
  | nil s => simp [countCorrect]
  | cons hstep htr ih =>
      have h1 := step_score hstep
      rw [countCorrect, List.countP_cons]
      rw [countCorrect] at ih
      omega

theorem trace_reach {d : String} {s s' : GState} {tr : List (GState × Label)}
    (h : Trace s tr s') (h0 : Reach d s) : Reach d s' := by
  induction h with
  | nil s => exact h0
  | cons hstep htr ih => exact ih (Reach.step h0 hstep)

theorem not_step_of_finalized {s : GState} (hf : s.finalized ≠ none)
    (l : Label) (s' : GState) : ¬ Step s l s' := by
  intro h
  cases h <;> simp_all

/-! ## Reachability of the concrete run -/

theorem reach_g2 : Reach "easy" g2 :=
  Reach.step
    (Reach.step Reach.init (Step.start g0 (by decide) (by decide)))
    (Step.seqCompleteInit g1 (hInit 0) (getAvailableNotes "easy") Note.C
      (by decide) (by decide) (by decide) (by decide))

theorem trace_c7 : Trace (initialState "easy") c7Trace g19 :=
  Trace.cons (Step.start g0 (by decide) (by decide))
    (Trace.cons (Step.seqCompleteInit g1 (hInit 0) (getAvailableNotes "easy") Note.C
        (by decide) (by decide) (by decide) (by decide))
    (Trace.cons (Step.guessClick g2 Note.C (by decide) (by decide) (by decide))
    (Trace.cons (Step.feedbackTimer g3 true 1 0 (by decide) (by decide))
    (Trace.cons (Step.nextRoundTimer g4 (by decide) (by decide))
    (Trace.cons (Step.seqCompleteInit g5 (hInit 1) (getAvailableNotes "easy") Note.C
        (by decide) (by decide) (by decide) (by decide))
    (Trace.cons (Step.guessClick g6 Note.C (by decide) (by decide) (by decide))
    (Trace.cons (Step.feedbackTimer g7 true 2 1 (by decide) (by decide))
    (Trace.cons (Step.nextRoundTimer g8 (by decide) (by decide))
    (Trace.cons (Step.seqCompleteInit g9 (hInit 2) (getAvailableNotes "easy") Note.C
        (by decide) (by decide) (by decide) (by decide))
    (Trace.cons (Step.guessClick g10 Note.C (by decide) (by decide) (by decide))
    (Trace.cons (Step.feedbackTimer g11 true 3 2 (by decide) (by decide))
    (Trace.cons (Step.nextRoundTimer g12 (by decide) (by decide))
    (Trace.cons (Step.seqCompleteInit g13 (hInit 3) (getAvailableNotes "easy") Note.C
        (by decide) (by decide) (by decide) (by decide))
    (Trace.cons (Step.guessClick g14 Note.C (by decide) (by decide) (by decide))
    (Trace.cons (Step.feedbackTimer g15 true 4 3 (by decide) (by decide))
    (Trace.cons (Step.nextRoundTimer g16 (by decide) (by decide))
    (Trace.cons (Step.seqCompleteInit g17 (hInit 4) (getAvailableNotes "easy") Note.C
        (by decide) (by decide) (by decide) (by decide))
    (Trace.cons (Step.guessClick g18 Note.C (by decide) (by decide) (by decide))
      (Trace.nil g19)))))))))))))))))))

/-- C5: in every reachable state of a session the 1-based round index
satisfies 1 <= round <= totalRounds, and every feedback timeout that does
not finalize the session (the Feedback to Priming advance) increments the
round index by exactly one. -/
theorem C5_round_bounds (d : String) (s : GState) (hr : Reach d s) :
    (1 ≤ s.round ∧ s.round ≤ totalRounds d) ∧
    (∀ s' : GState, Step s Label.feedbackTimer s' → s'.finalized = none →
      s'.round = s.round + 1) := by
  have hinv := reach_inv hr
  refine ⟨⟨hinv.round_pos, hinv.round_le⟩, ?_⟩
  intro s' hstep hfin
  cases hstep with
  | feedbackTimer c r cs hA hpf =>
      obtain ⟨hround, hsc, hfb⟩ := hinv.pf c r cs hpf
      unfold feedbackTimeoutBody at hfin ⊢
      split at hfin
      · rw [endGame_finalized] at hfin
        exact Option.noConfusion hfin
      case isFalse hlt =>
        rw [if_neg hlt]
        show r + 1 = s.round + 1
        omega

/-- Witness for C5 at the reachable guessing state of round 1. -/
theorem C5_witness :
    (1 ≤ g2.round ∧ g2.round ≤ totalRounds "easy") ∧
    (∀ s' : GState, Step g2 Label.feedbackTimer s' → s'.finalized = none →
      s'.round = g2.round + 1) :=
  C5_round_bounds "easy" g2 reach_g2

/-- C7: when the feedback timeout of a guess handled in the final round
(round index equal to totalRounds) fires, the machine finalizes the
session, handing the scoring collaborator exactly the number of correct
guesses the whole run recorded (which is at most totalRounds) together with
totalRounds as the question count, and no further step is possible from the
resulting state. -/
theorem C7_endgame (d : String) (tr : List (GState × Label)) (s s' : GState)
    (htr : Trace (initialState d) tr s)
    (hround : s.round = totalRounds d)
    (hstep : Step s Label.feedbackTimer s') :
    s'.finalized = some (countCorrect tr, totalRounds d) ∧
    countCorrect tr ≤ totalRounds d ∧
    (∀ l t, ¬ Step s' l t) := by
  have hreach : Reach d s := trace_reach htr Reach.init
  have hinv := reach_inv hreach
  have hscore : s.score = countCorrect tr := by
    have h1 := trace_score htr
    simpa [initialState] using h1
  cases hstep with
  | feedbackTimer c r cs hA hpf =>
      obtain ⟨hr, hsc, hfb⟩ := hinv.pf c r cs hpf
      have hd : ({ s with pendingFeedback := none } : GState).difficulty = d := hinv.diff
      have hcond : totalRounds ({ s with pendingFeedback := none } : GState).difficulty ≤ r := by
        rw [hd]; omega
      have hveq : (if c then cs + 1 else cs) = countCorrect tr := by
        rw [← hscore, ← hsc]
        cases c <;> simp
      unfold feedbackTimeoutBody
      rw [if_pos hcond]
      have hfin : (endGame { s with pendingFeedback := none }
          (some (if c then cs + 1 else cs))).finalized =
          some (countCorrect tr, totalRounds d) := by
        rw [endGame_finalized, hveq, hd]
      refine ⟨hfin, ?_, ?_⟩
      · have h1 := hinv.score_fb hfb
        omega
      · intro l t
        apply not_step_of_finalized
        rw [hfin]
        simp

/-- Witness for C7: the concrete five-round easy run with every guess
correct finalizes with score 5 out of 5. -/
theorem C7_witness :
    (feedbackTimeoutBody { g19 with pendingFeedback := none } true 5 4).finalized =
      some (countCorrect c7Trace, totalRounds "easy") ∧
    countCorrect c7Trace ≤ totalRounds "easy" ∧
    (∀ l t, ¬ Step (feedbackTimeoutBody { g19 with pendingFeedback := none } true 5 4) l t) :=
  C7_endgame "easy" c7Trace g19
    (feedbackTimeoutBody { g19 with pendingFeedback := none } true 5 4)
    trace_c7 (by decide)
    (Step.feedbackTimer g19 true 5 4 (by decide) (by decide))

/-- C8 counterexample: exit does not cancel every pending handle.  In the
reachable double-replay state two handles are scheduled and only the
newest one's cleanup is stored; the exit step from that state leaves the
older handle (id 1) still scheduled, since confirmExit invokes only the
stored cleanup. -/
theorem C8_counterexample :
    Reach "easy" gReplay2 ∧
    Step gReplay2 Label.exit (confirmExit gReplay2) ∧
    ({ id := 1, passage := referencePassage "easy",
        kind := HandleKind.replay } : Handle) ∈ gReplay2.liveHandles ∧
    gReplay2.audioCleanupRef =
      some { id := 2, passage := referencePassage "easy", kind := HandleKind.replay } ∧
    ({ id := 1, passage := referencePassage "easy",
        kind := HandleKind.replay } : Handle) ∈ (confirmExit gReplay2).liveHandles := by
  refine ⟨?_, Step.exit gReplay2 (by decide), by decide, by decide, by decide⟩
  exact Reach.step
    (Reach.step reach_g2 (Step.replayPassageClick g2 (by decide)))
    (Step.replayPassageClick gReplay1 (by decide))

/-- C8 (amended): the confirmed exit, available in any reachable state,
empties the active-audio-source registry, invokes only the stored cleanup,
so the handle audioCleanupRef refers to is no longer scheduled (not every
pending handle: an overwritten one stays scheduled), and terminates
without finalizing a session: onEndGame is not invoked on the exit path. -/
theorem C8_exit (d : String) (s s' : GState) (hr : Reach d s)
    (hstep : Step s Label.exit s') :
    s'.activeAudioSources = [] ∧
    (∀ h : Handle, s.audioCleanupRef = some h → h ∉ s'.liveHandles) ∧
    s'.finalized = none ∧
    s'.exited = true := by
  have hinv := reach_inv hr
  cases hstep with
  | exit hA =>
      refine ⟨?_, ?_, ?_, rfl⟩
      · show (cancelTracked { s with activeAudioSources := [] }).activeAudioSources = []
        rw [cancelTracked_activeAudioSources]
      · intro h href
        have hnodup : s.liveHandles.Nodup := List.Nodup.of_map Handle.id hinv.ids_nodup
        have hlive : (confirmExit s).liveHandles = s.liveHandles.erase h := by
          show (cancelTracked { s with activeAudioSources := [] }).liveHandles = _
          rw [cancelTracked_live_of_some { s with activeAudioSources := [] } h href]
        rw [hlive]
        exact hnodup.not_mem_erase
      · show (cancelTracked { s with activeAudioSources := [] }).finalized = none
        rw [cancelTracked_finalized]
        exact hA.2

/-- Witness for C8 at the reachable guessing state of round 1. -/
theorem C8_witness :
    (confirmExit g2).activeAudioSources = [] ∧
    (∀ h : Handle, g2.audioCleanupRef = some h → h ∉ (confirmExit g2).liveHandles) ∧
    (confirmExit g2).finalized = none ∧
    (confirmExit g2).exited = true :=
  C8_exit "easy" g2 (confirmExit g2) reach_g2 (Step.exit g2 (by decide))

/-- C4 counterexample: from the reachable guessing state g2 one
replay-passage click leaves one handle scheduled; a second click creates a
new handle with the first still scheduled, without any cancellation call:
two continuations are pending at once, and only the newest handle's cleanup
remains stored. -/
theorem C4_counterexample :
    Reach "easy" gReplay2 ∧
    Step gReplay1 Label.replayPassageClick gReplay2 ∧
    gReplay1.liveHandles ≠ [] ∧
    gReplay1.liveHandles.length = 1 ∧
    gReplay2.liveHandles.length = 2 ∧
    ({ id := 1, passage := referencePassage "easy",
        kind := HandleKind.replay } : Handle) ∈ gReplay2.liveHandles ∧
    gReplay2.audioCleanupRef =
      some { id := 2, passage := referencePassage "easy", kind := HandleKind.replay } := by
  refine ⟨?_, Step.replayPassageClick gReplay1 (by decide), by decide, by decide,
    by decide, by decide, by decide⟩
  exact Reach.step
    (Reach.step reach_g2 (Step.replayPassageClick g2 (by decide)))
    (Step.replayPassageClick gReplay1 (by decide))

/-- C4 (amended): the replay-passage action does not cancel the outstanding
handle: while guessing it pushes a fresh handle onto the scheduled ones,
leaving every previously scheduled handle in place, and merely overwrites
the stored cleanup reference with the new handle's. -/
theorem C4_replay_no_cancel (s : GState) (hg : s.status = Status.guessing) :
    (replayScale s).liveHandles =
      { id := s.nextHandleId, passage := referencePassage s.difficulty,
        kind := HandleKind.replay } :: s.liveHandles ∧
    (replayScale s).audioCleanupRef =
      some { id := s.nextHandleId, passage := referencePassage s.difficulty,
             kind := HandleKind.replay } := by
  unfold replayScale
  rw [if_pos hg]
  exact ⟨rfl, rfl⟩

/-- Witness for the amended C4 at the reachable guessing state g2. -/
theorem C4_witness :
    (replayScale g2).liveHandles =
      { id := g2.nextHandleId, passage := referencePassage g2.difficulty,
        kind := HandleKind.replay } :: g2.liveHandles ∧
    (replayScale g2).audioCleanupRef =
      some { id := g2.nextHandleId, passage := referencePassage g2.difficulty,
             kind := HandleKind.replay } :=
  C4_replay_no_cancel g2 (by decide)

end EarTrainer
